import Mathlib

/-!
Verification of the record-normalization core of `ai-generators/build_public_pages.py`
(static-site generator for loosely structured business records).

The Python values flowing through the normalizer are JSON/YAML data: `None`,
booleans, ints, floats, strings, lists and dicts.  They are embedded as the
inductive type `Val` below; Python dicts become association lists (keys are
unique in the data of interest, and lookups take the first match).  Python
floats only ever carry plain decimal literals in these schema files, so they
are modelled as rationals.  Each Lean definition mirrors one Python helper of
the source file, keeping its name (camel-cased) and its control flow.
-/

set_option maxRecDepth 4000

/-- Embedded Python/JSON value. -/
inductive Val where
  | vnull
  | vbool (b : Bool)
  | vint  (n : Int)
  | vfloat (q : Rat)
  | vstr  (s : String)
  | vlist (xs : List Val)
  | vdict (m : List (String × Val))

/-- Association-list lookup, modelling Python `d[k]` / `d.get(k)`. -/
def dlookup : List (String × Val) → String → Option Val
  | [], _ => none
  | (k, v) :: rest, key => if k = key then some v else dlookup rest key

/-- `d.get(k)` where a missing key yields Python `None`. -/
def dget (m : List (String × Val)) (key : String) : Val :=
  (dlookup m key).getD .vnull

/-- Python truthiness (`bool(v)`). -/
def pyTruthy : Val → Bool
  | .vnull => false
  | .vbool b => b
  | .vint n => n != 0
  | .vfloat q => q != 0
  | .vstr s => s != ""
  | .vlist xs => !xs.isEmpty
  | .vdict m => !m.isEmpty

/-- Python `v == 0` for the values that can compare equal to `0`
(`0`, `0.0` and `False`; strings and containers never do). -/
def pyIsZero : Val → Bool
  | .vint n => n == 0
  | .vfloat q => q == 0
  | .vbool b => !b
  | _ => false

/-- Python `a or b` on values: `a` when truthy, else `b`. -/
def pyOr (a b : Val) : Val := if pyTruthy a then a else b

/-- The whitespace characters stripped by Python's `str.strip()` and matched
by `\s` (ASCII range; the schema data contains no exotic Unicode spaces). -/
def pyIsSpace (c : Char) : Bool :=
  c = ' ' || c = '\t' || c = '\n' || c = '\r' || c = '\x0b' || c = '\x0c'

/-- Python `str.strip()` (`List.rdropWhile` drops the trailing run). -/
def pyStrip (s : String) : String :=
  String.mk (List.rdropWhile pyIsSpace (s.data.dropWhile pyIsSpace))

/-- ASCII lower-casing of one character (the schema strings are ASCII). -/
def lowerChar (c : Char) : Char :=
  if 65 ≤ c.toNat ∧ c.toNat ≤ 90 then Char.ofNat (c.toNat + 32) else c

/-- ASCII upper-casing of one character. -/
def upperChar (c : Char) : Char :=
  if 97 ≤ c.toNat ∧ c.toNat ≤ 122 then Char.ofNat (c.toNat - 32) else c

/-- Python `str.lower()` (ASCII). -/
def pyLower (s : String) : String := String.mk (s.data.map lowerChar)

/-- Worker for `pyTitle`: the flag records whether the previous character was
alphabetic (i.e. we are inside a word). -/
def titleAux : Bool → List Char → List Char
  | _, [] => []
  | prevAlpha, c :: cs =>
    if c.isAlpha then
      (if prevAlpha then lowerChar c else upperChar c) :: titleAux true cs
    else
      c :: titleAux false cs

/-- Python `str.title()`: first letter of every alphabetic run upper-cased,
the rest lower-cased (ASCII). -/
def pyTitle (s : String) : String := String.mk (titleAux false s.data)

/-- Python `str.replace(old, new)` for single-character patterns. -/
def replaceChar (s : String) (old new : Char) : String :=
  String.mk (s.data.map fun c => if c = old then new else c)

/-- Join a list of strings with a separator (Python `sep.join(xs)`). -/
def strJoin (sep : String) : List String → String
  | [] => ""
  | [x] => x
  | x :: xs => x ++ sep ++ strJoin sep xs

/-- Python `str(n)` for an int. -/
def intStr (n : Int) : String := toString n

/-- Decimal digits of `num/den` (both below the fuel bound in practice);
fuel caps the expansion, 17 significant fractional digits as in CPython. -/
def decDigits : Nat → Nat → Nat → String
  | _, _, 0 => ""
  | num, den, fuel + 1 =>
    if num = 0 ∨ den = 0 then ""
    else
      let n' := num * 10
      String.singleton (Char.ofNat (48 + n' / den % 10)) ++ decDigits (n' % den) den fuel

/-- Python `str(f)` for a float, for the plain decimal values appearing in
the schema files (e.g. `0.0 ↦ "0.0"`, `2.5 ↦ "2.5"`); the shortest-repr
behaviour of arbitrary binary floats is out of scope. -/
def floatStr (q : Rat) : String :=
  let sign := if q.num < 0 then "-" else ""
  let a := q.num.natAbs
  let ipart := a / q.den
  let fpart := a % q.den
  let ds := decDigits fpart q.den 17
  sign ++ toString ipart ++ "." ++ (if ds = "" then "0" else ds)

/-- Python `str(v)` / `repr(v)` (the Bool selects repr mode, which quotes
strings, as container elements are rendered with `repr`). -/
def pyToStr (r : Bool) : Val → String
  | .vstr s => if r then "\x27" ++ s ++ "\x27" else s
  | .vnull => "None"
  | .vbool b => if b then "True" else "False"
  | .vint n => intStr n
  | .vfloat q => floatStr q
  | .vlist xs => "[" ++ strJoin ", " (xs.attach.map (fun x => pyToStr true x.1)) ++ "]"
  | .vdict m =>
    "\x7b" ++
      strJoin ", " (m.attach.map (fun kv => "\x27" ++ kv.1.1 ++ "\x27: " ++ pyToStr true kv.1.2)) ++
    "\x7d"
termination_by v => sizeOf v
decreasing_by
  · have := List.sizeOf_lt_of_mem x.2
    simp only [Val.vlist.sizeOf_spec]
    omega
  · have := List.sizeOf_lt_of_mem kv.2
    have h2 : sizeOf kv.1.2 < sizeOf kv.1 := by
      obtain ⟨⟨a, b⟩, _⟩ := kv
      simp only [Prod.mk.sizeOf_spec]
      omega
    simp only [Val.vdict.sizeOf_spec]
    omega

/-- Python `str(v)`.  Atoms are spelled out (same values as `pyToStr false`)
so that the function reduces definitionally on non-container values. -/
def pyStr : Val → String
  | .vstr s => s
  | .vnull => "None"
  | .vbool b => if b then "True" else "False"
  | .vint n => intStr n
  | .vfloat q => floatStr q
  | v => pyToStr false v

/-- `_first_nonempty(*vals)` (build_public_pages.py lines 47-55): first
stripped non-empty string, or `str` of the first int/float (bools are ints
in Python), or the stripped `"@value"` member of a dict; `""` when nothing
qualifies. -/
def firstNonempty : List Val → String
  | [] => ""
  | v :: vs =>
    match v with
    | .vstr s => if pyStrip s ≠ "" then pyStrip s else firstNonempty vs
    | .vint n => intStr n
    | .vbool b => if b then "True" else "False"
    | .vfloat q => floatStr q
    | .vdict m =>
      match dlookup m "@value" with
      | some (.vstr s) => if pyStrip s ≠ "" then pyStrip s else firstNonempty vs
      | _ => firstNonempty vs
    | _ => firstNonempty vs


/-- Python `s.split(",")`: split into the (possibly empty) pieces between
commas; `acc` holds the current piece reversed. -/
def splitComma : List Char → List Char → List String
  | [], acc => [String.mk acc.reverse]
  | c :: cs, acc =>
    if c = ',' then String.mk acc.reverse :: splitComma cs []
    else splitComma cs (c :: acc)

/-- `_as_list(val)` (lines 57-64): a list becomes its stringified, stripped,
non-empty elements; a non-blank string is split on commas. -/
def asList (v : Val) : List String :=
  match v with
  | .vnull => []
  | .vlist xs => (xs.map (fun x => pyStrip (pyStr x))).filter (fun s => s ≠ "")
  | .vstr s =>
    if pyStrip s ≠ "" then
      ((splitComma s.data []).map pyStrip).filter (fun s => s ≠ "")
    else []
  | _ => []

/-- `FIELD_ALIASES` (lines 119-135). -/
def fieldAliases (key : String) : List String :=
  if key = "entity_name" then ["entity_name", "organization", "org_name", "company", "name"]
  else if key = "contact_person" then ["contact_person", "contact", "contact_name", "primary_contact", "attention"]
  else if key = "email" then ["email", "contact_email", "email_address", "mail"]
  else if key = "phone" then ["phone", "telephone", "tel", "phone_number", "contact_number"]
  else if key = "address_street" then ["address_street", "streetAddress", "street", "address1", "address_line_1", "address_line"]
  else if key = "address_city" then ["address_city", "city", "addressLocality"]
  else if key = "address_state" then ["address_state", "state", "addressRegion", "province"]
  else if key = "address_postal_code" then ["address_postal_code", "postalCode", "zip", "zipCode", "postcode"]
  else if key = "hours" then ["hours", "openingHours", "opening_hours", "business_hours"]
  else if key = "map_embed_url" then ["map_embed_url", "map", "map_iframe"]
  else if key = "google_maps_url" then ["google_maps_url", "maps_url", "map_url"]
  else if key = "latitude" then ["geo_latitude", "latitude", "lat"]
  else if key = "longitude" then ["geo_longitude", "longitude", "lng", "lon"]
  else if key = "website" then ["website", "url", "homepage"]
  else if key = "sameAs" then ["sameAs", "same_as", "social", "social_links"]
  else []

/-- The keys `_alias_get` probes in order: the canonical key itself, then its
alias list. -/
def probeKeys (key : String) : List String := key :: fieldAliases key

/-- The presence test of `_alias_get`: `d[k] or d[k] == 0` (truthy, or a
numeric/boolean zero). -/
def aliasPresent (v : Val) : Bool := pyTruthy v || pyIsZero v

/-- The alias scan of `_alias_get`: first key whose value passes the
presence test. -/
def findAliasVal (m : List (String × Val)) : List String → Option Val
  | [] => none
  | k :: ks =>
    match dlookup m k with
    | some v => if aliasPresent v then some v else findAliasVal m ks
    | none => findAliasVal m ks

/-- `_alias_get(d, canon_key)` (lines 137-156): canonical key then aliases,
then the `geo` sub-object for latitude/longitude, then `contactPoint` /
`contact_point` for phone/email; `none` models Python `None`. -/
def aliasGet (d : Val) (key : String) : Option Val :=
  match d with
  | .vdict m =>
    match findAliasVal m (probeKeys key) with
    | some v => some v
    | none =>
      if key = "latitude" ∨ key = "longitude" then
        match pyOr (dget m "geo") (.vdict []) with
        | .vdict gm => dlookup gm key
        | _ => none
      else if key = "phone" ∨ key = "email" then
        match pyOr (dget m "contactPoint") (dget m "contact_point") with
        | .vdict cpm =>
          if key = "phone" then
            some (.vstr (firstNonempty [dget cpm "telephone", dget cpm "phone"]))
          else
            some (.vstr (firstNonempty [dget cpm "email"]))
        | _ => none
      else none
  | _ => none

/-- `Option Val → Val`: a missing result is Python `None`. -/
def optVal (o : Option Val) : Val := o.getD .vnull

/-- The pervasive `_first_nonempty(_alias_get(loc, key))` combination. -/
def resolveStr (d : Val) (key : String) : String :=
  firstNonempty [optVal (aliasGet d key)]


/-- `loc.get(key)` on a record value; every call site passes a dict. -/
def vget (loc : Val) (key : String) : Val :=
  match loc with
  | .vdict m => dget m key
  | _ => .vnull

/-- Join the non-empty address parts with single spaces and strip, as in
`" ".join([p for p in parts if p]).strip()`. -/
def joinAddressParts (parts : List String) : String :=
  pyStrip (strJoin " " (parts.filter (fun p => p ≠ "")))

/-- The `", ".join([p for p in [city, state] if p]) if city or state else None`
part of address composition (`""` models the `None`/empty cases). -/
def cityStatePart (city state : String) : String :=
  if city ≠ "" ∨ state ≠ "" then
    strJoin ", " ([city, state].filter (fun p => p ≠ ""))
  else ""

/-- `_format_address_from_components(loc)` (lines 158-165). -/
def formatAddressFromComponents (loc : Val) : String :=
  let line1 := firstNonempty [optVal (aliasGet loc "address_street")]
  let line2 := firstNonempty [vget loc "address2", vget loc "address_line_2", vget loc "suite"]
  let city  := firstNonempty [optVal (aliasGet loc "address_city")]
  let state := firstNonempty [optVal (aliasGet loc "address_state")]
  let zipc  := firstNonempty [optVal (aliasGet loc "address_postal_code")]
  joinAddressParts [line1, line2, cityStatePart city state, zipc]

/-- `_format_address(addr, loc)` (lines 167-178): an already-flat non-blank
string is returned stripped; a dict is flattened from its own sub-fields;
anything else falls back to the loose top-level fields of `loc`. -/
def formatAddress (addr : Val) (loc : Val) : String :=
  match addr with
  | .vstr s =>
    if pyStrip s ≠ "" then pyStrip s else formatAddressFromComponents loc
  | .vdict am =>
    let line1 := firstNonempty [dget am "streetAddress", dget am "address1", dget am "addressLine1"]
    let line2 := firstNonempty [dget am "address2", dget am "addressLine2", dget am "suite"]
    let city  := firstNonempty [dget am "addressLocality", dget am "city"]
    let state := firstNonempty [dget am "addressRegion", dget am "state"]
    let zipc  := firstNonempty [dget am "postalCode", dget am "zip", dget am "zipCode"]
    joinAddressParts [line1, line2, cityStatePart city state, zipc]
  | _ => formatAddressFromComponents loc

/-- Python `day.rsplit("/", 1)[-1]`: the part after the last slash. -/
def afterLastSlash (s : String) : String :=
  String.mk ((s.data.reverse.takeWhile (fun c => c ≠ '/')).reverse)

/-- One row of the structured-hours loop (lines 187-198).  `none` when the
entry is skipped.  The source also probes `isinstance(day, list)` before the
slash-split, but `day` is the return value of `_first_nonempty` and hence
always a string, so that branch is unreachable and has no counterpart here. -/
def hoursRow (r : Val) : Option String :=
  match r with
  | .vdict rm =>
    let day0 := firstNonempty [dget rm "dayOfWeek", dget rm "day", dget rm "weekday"]
    let day := if day0.data.contains '/' then afterLastSlash day0 else day0
    let opens := firstNonempty [dget rm "opens", dget rm "openingTime"]
    let closes := firstNonempty [dget rm "closes", dget rm "closingTime"]
    if day ≠ "" ∧ (opens ≠ "" ∨ closes ≠ "") then
      some (day ++ ": " ++ (if opens = "" then "—" else opens) ++ " – "
                ++ (if closes = "" then "—" else closes))
    else none
  | _ => none

/-- `_extract_hours(loc)` (lines 180-201). -/
def extractHours (loc : Val) : String :=
  let hours := firstNonempty [optVal (aliasGet loc "hours")]
  if hours ≠ "" then hours
  else
    match pyOr (vget loc "openingHoursSpecification") (vget loc "opening_hours_specification") with
    | .vlist spec =>
      if spec.isEmpty then ""
      else
        let rows := spec.filterMap hoursRow
        if rows.isEmpty then "" else strJoin "; " rows
    | _ => ""


/-- UTF-8 bytes of one character (as numbers below 256). -/
def utf8Bytes (c : Char) : List Nat :=
  let n := c.toNat
  if n < 0x80 then [n]
  else if n < 0x800 then [0xC0 + n / 0x40, 0x80 + n % 0x40]
  else if n < 0x10000 then
    [0xE0 + n / 0x1000, 0x80 + n / 0x40 % 0x40, 0x80 + n % 0x40]
  else
    [0xF0 + n / 0x40000, 0x80 + n / 0x1000 % 0x40, 0x80 + n / 0x40 % 0x40, 0x80 + n % 0x40]

/-- One uppercase hexadecimal digit. -/
def hexDigit (n : Nat) : Char :=
  if n < 10 then Char.ofNat (48 + n) else Char.ofNat (55 + n)

/-- Percent-encoding of one byte, `"%XX"`. -/
def pctByte (b : Nat) : String :=
  String.mk ['%', hexDigit (b / 16 % 16), hexDigit (b % 16)]

/-- `urllib.parse.quote_plus(s)`: spaces become `+`; ASCII letters, digits
and `_.-~` pass through; every other byte of the UTF-8 encoding is
percent-escaped. -/
def quotePlus (s : String) : String :=
  strJoin "" (s.data.map fun c =>
    if c = ' ' then "+"
    else if c.isAlphanum ∨ c = '_' ∨ c = '.' ∨ c = '-' ∨ c = '~' then String.singleton c
    else strJoin "" ((utf8Bytes c).map pctByte))


/-- Python `isinstance(v, (int, float))` (`bool` is a subclass of `int`). -/
def pyIsNum : Val → Bool
  | .vint _ => true
  | .vfloat _ => true
  | .vbool _ => true
  | _ => false

/-- `isinstance` test on the result of `_alias_get` (a missing value is
Python `None`, which is not numeric). -/
def optIsNum : Option Val → Bool
  | some v => pyIsNum v
  | none => false

/-- `_map_embed_src(loc, address)` (lines 203-215): coordinates first, then
the explicit embed/maps URL fields, then the address-encoded maps URL,
else absent. -/
def mapEmbedSrc (loc : Val) (address : String) : String :=
  let lat := aliasGet loc "latitude"
  let lng := aliasGet loc "longitude"
  if optIsNum lat ∧ optIsNum lng then
    "https://www.google.com/maps?q=" ++ pyStr (optVal lat) ++ "," ++ pyStr (optVal lng)
      ++ "&z=15&output=embed"
  else
    let mapUrl := firstNonempty [optVal (aliasGet loc "map_embed_url")]
    let gmaps := firstNonempty [optVal (aliasGet loc "google_maps_url")]
    if mapUrl ≠ "" then mapUrl
    else if gmaps ≠ "" then gmaps
    else if address ≠ "" then
      "https://www.google.com/maps?q=" ++ quotePlus address ++ "&output=embed"
    else ""

/-- Characters kept by `re.sub(r'[^a-zA-Z0-9\s-]', '', ...)` in `slugify`
(the ASCII classes written out on code points). -/
def slugKeep (c : Char) : Bool :=
  (65 ≤ c.toNat && c.toNat ≤ 90) || (97 ≤ c.toNat && c.toNat ≤ 122) ||
    (48 ≤ c.toNat && c.toNat ≤ 57) || pyIsSpace c || c = '-'

/-- `re.sub(r'[\s]+', '-', ...)`: each maximal whitespace run becomes one
hyphen; the flag records whether we are inside a run already emitted. -/
def collapseWsAux : Bool → List Char → List Char
  | _, [] => []
  | inRun, c :: cs =>
    if pyIsSpace c then
      if inRun then collapseWsAux true cs else '-' :: collapseWsAux true cs
    else c :: collapseWsAux false cs

/-- The string pipeline of `slugify` after the truthiness check. -/
def slugCore (s : String) : String :=
  String.mk (collapseWsAux false (pyLower (pyStrip (String.mk (s.data.filter slugKeep)))).data)

/-- `slugify(text)` (lines 17-22): falsy input or an empty residue gives
`"item"`. -/
def slugify (text : Val) : String :=
  if !pyTruthy text then "item"
  else
    let r := slugCore (pyStr text)
    if r = "" then "item" else r


/-- The character class the slugify claim asserts for outputs: lowercase
ASCII letters, digits and hyphens. -/
def goodSlugChar (c : Char) : Bool :=
  (97 ≤ c.toNat && c.toNat ≤ 122) || (48 ≤ c.toNat && c.toNat ≤ 57) || c = '-'

/-- The fixed placeholder-title set of `_is_placeholder_title`. -/
def placeholderSet : List String :=
  ["service", "unnamed service", "untitled", "n/a", "na", "tbd"]

/-- `re.fullmatch(r"(service|item|entry)\s*\d+", t)`. -/
def placeholderPattern (t : String) : Bool :=
  ["service", "item", "entry"].any fun p =>
    p.data.isPrefixOf t.data &&
      (let rest := (t.data.drop p.length).dropWhile pyIsSpace
       !rest.isEmpty && rest.all Char.isDigit)

/-- `_is_placeholder_title(text)` (lines 70-77), for string candidates (every
call site passes the string result of `_first_nonempty`, so the non-string
arm of the source collapses to the blank-string test). -/
def isPlaceholderTitle (text : String) : Bool :=
  if pyStrip text = "" then true
  else
    let t := pyLower (pyStrip text)
    placeholderSet.contains t || placeholderPattern t


/-- `os.path.basename` for forward-slash paths. -/
def pathBasename (p : String) : String := afterLastSlash p

/-- `os.path.splitext(...)[0]`: drop the extension at the last dot, unless
every character before that dot is itself a dot. -/
def splitextStem (b : String) : String :=
  let l := b.data
  match (List.range l.length).filter (fun i => l.getD i ' ' = '.') with
  | [] => b
  | is =>
    let p := is.getLast! 
    if (l.take p).all (fun c => c = '.') then b else String.mk (l.take p)


/-- `_title_from_filename(path)` (lines 66-68). -/
def titleFromFilename (path : String) : String :=
  pyTitle (pyStrip (replaceChar (replaceChar (splitextStem (pathBasename path)) '-' ' ') '_' ' '))


/-- The eleven candidate-title fields probed by `_guess_title` (lines 520-532). -/
def guessTitleCandidate (om : List (String × Val)) : String :=
  firstNonempty [dget om "title", dget om "service_name", dget om "name",
    dget om "headline", dget om "service", dget om "offering", dget om "product_name",
    dget om "category", dget om "subtype", dget om "type", dget om "label"]

/-- Python `a or b` on strings. -/
def strOr (a b : String) : String := if a = "" then b else a

/-- The candidate-title expression of `_guess_title` (`""` for non-dict
records, where every `obj.get(...)` is `None`). -/
def titleCandidateOf (obj : Val) : String :=
  match obj with
  | .vdict om => guessTitleCandidate om
  | _ => ""

/-- The fallback cascade of `_guess_title` after the candidate fields are
probed: keyword-derived title, then filename-derived title, then
`"Service"`. -/
def guessTitleFrom (candidate0 : String) (kwsVal : Val) (filename : String) : String :=
  let candidate1 :=
    if isPlaceholderTitle candidate0 then
      let kws := asList kwsVal
      if !kws.isEmpty then pyTitle (strJoin " / " (kws.take 2)) else candidate0
    else candidate0
  let candidate2 :=
    if isPlaceholderTitle candidate1 then titleFromFilename filename else candidate1
  strOr candidate2 "Service"

/-- `_guess_title(obj, filename)` (lines 519-539): candidate fields, then a
keyword-derived title, then the filename-derived title, then `"Service"`. -/
def guessTitle (obj : Val) (filename : String) : String :=
  guessTitleFrom (titleCandidateOf obj) (vget obj "keywords") filename


/-- `_norm(s)` of `generate_contact_page` (line 398): strip then lower. -/
def normSig (s : String) : String := pyLower (pyStrip s)

/-- `_norm_phone(s)` (line 401): keep only digits (`re.sub(r"\D+", "", s)`). -/
def normPhone (s : String) : String := String.mk (s.data.filter Char.isDigit)

/-- The per-record normalized fields used by the contact page
(lines 429-435). -/
def contactEntity (loc : Val) : String :=
  let e := firstNonempty [optVal (aliasGet loc "entity_name"), vget loc "location_name"]
  if e = "" then "Location" else e

/-- The dedupe signature of one location record (lines 437-445): entity,
person, phone digits, email, composed address and map URL, normalized. -/
def contactSig (loc : Val) : List String :=
  let entity := contactEntity loc
  let person := firstNonempty [optVal (aliasGet loc "contact_person")]
  let phone := firstNonempty [optVal (aliasGet loc "phone")]
  let email := firstNonempty [optVal (aliasGet loc "email")]
  let addr := formatAddress (vget loc "address") loc
  let mapSrc := mapEmbedSrc loc addr
  [normSig entity, normSig person, normPhone phone, normSig email,
   normSig addr, normSig mapSrc]

/-- `isinstance(loc, dict)`. -/
def isDict : Val → Bool
  | .vdict _ => true
  | _ => false

/-- The record loop of `generate_contact_page` (lines 424-489) restricted to
what the dedup claim observes: records scanned (dicts only), cards rendered,
and which records were rendered.  `seen` is the signature set; a record whose
signature was already seen is scanned but not rendered. -/
def processLocs : List Val → List (List String) → Nat × Nat × List Val
  | [], _ => (0, 0, [])
  | loc :: rest, seen =>
    if isDict loc then
      let sig := contactSig loc
      if seen.contains sig then
        let out := processLocs rest seen
        (out.1 + 1, out.2.1, out.2.2)
      else
        let out := processLocs rest (sig :: seen)
        (out.1 + 1, out.2.1 + 1, loc :: out.2.2)
    else processLocs rest seen

/-- The scalar merge order of `_merge_orgs` (lines 731-738). -/
def mergeScalarOrder : List String :=
  ["entity_name", "name", "legal_name", "brand", "site_title",
   "description", "mission", "vision",
   "logo_url", "logo",
   "website", "main_website_url", "url",
   "phone", "email"]

/-- The social-link keys merged by `_merge_orgs` (line 730).  The source
stores them in a Python set; its iteration order is unspecified, so the
written order is used here (the merged result is the concatenation over
these keys record-by-record, which only depends on the order when one record
carries several of the keys at once). -/
def mergeListKeys : List String := ["sameAs", "same_as", "social", "social_links"]

/-- First non-empty value of `key` across the org records, as in the scalar
loop of `_merge_orgs` (lines 740-745). -/
def mergeScalar (orgs : List Val) (key : String) : String :=
  match orgs with
  | [] => ""
  | org :: rest =>
    let v := firstNonempty [vget org key]
    if v ≠ "" then v else mergeScalar rest key

/-- Order-preserving de-duplication of the social list (lines 752-758):
keep an element when it is non-empty and not seen before. -/
def dedupSocials : List String → List String → List String
  | [], _ => []
  | s :: rest, seen =>
    if s ≠ "" ∧ !seen.contains s then s :: dedupSocials rest (s :: seen)
    else dedupSocials rest seen

/-- `_merge_orgs(orgs)` (lines 727-760), as the pair of its outputs: the
scalar fields (in `scalar_order`, only the non-empty ones) and the merged,
de-duplicated `sameAs_merged` list. -/
def mergeOrgs (orgs : List Val) : List (String × String) × List String :=
  let scalars := (mergeScalarOrder.map (fun k => (k, mergeScalar orgs k))).filter
    (fun kv => kv.2 ≠ "")
  let socials := orgs.flatMap (fun org => mergeListKeys.flatMap (fun lk => asList (vget org lk)))
  (scalars, dedupSocials socials [])


/-- `repo_slug.split("/", 1)[-1]`: everything after the first slash, or the
whole string when there is none. -/
def afterFirstSlash (s : String) : String :=
  if s.data.contains '/' then String.mk ((s.data.dropWhile (fun c => c ≠ '/')).drop 1)
  else s

/-- The repository-slug site name of `load_org_meta` (line 289):
`repo_slug.split("/", 1)[-1].replace("-", " ").title()`. -/
def slugSiteName (repoSlug : String) : String :=
  pyTitle (replaceChar (afterFirstSlash repoSlug) '-' ' ')

/-- The site-name computation of `load_org_meta` (lines 277-290), as a pure
function of its three probe results: the first organization record found in
the candidate directories (`none` when the collection is empty), the name
discovered from other schema directories (`""` when none), and the
`GITHUB_REPOSITORY` slug (`""` when unset). -/
def loadOrgMetaName (org : Option Val) (discovered : String) (repoSlug : String) : String :=
  let name0 :=
    match org with
    | some (.vdict om) =>
      firstNonempty [dget om "entity_name", dget om "name", dget om "legal_name",
        dget om "brand", dget om "site_title"]
    | _ => ""
  let name1 := if name0 ≠ "" then name0 else discovered
  if name1 ≠ "" then name1
  else if repoSlug ≠ "" then slugSiteName repoSlug
  else "Site"


theorem charToNatOfNat (n : Nat) (h : n < 0xd800) : (Char.ofNat n).toNat = n := by
  unfold Char.ofNat
  rw [dif_pos (Or.inl h)]
  rfl

theorem dropWhileHeadFalse (p : Char → Bool) (c : Char) (z : List Char)
    (h : List.dropWhile p (c :: z) = c :: z) : p c = false := by
  by_contra hc
  rw [Bool.not_eq_false] at hc
  rw [List.dropWhile_cons, if_pos hc] at h
  have hlen := (List.dropWhile_sublist (l := z) p).length_le
  rw [h] at hlen
  simp at hlen

theorem stripNoLeadingWs (p : Char → Bool) (l : List Char) :
    List.dropWhile p (List.rdropWhile p (List.dropWhile p l))
      = List.rdropWhile p (List.dropWhile p l) := by
  have hyfix : List.dropWhile p (List.dropWhile p l) = List.dropWhile p l :=
    List.dropWhile_idempotent p l
  obtain ⟨t, ht⟩ := List.rdropWhile_prefix p (List.dropWhile p l)
  cases hz : List.rdropWhile p (List.dropWhile p l) with
  | nil => simp
  | cons c z =>
    have hyc : c :: (z ++ t) = List.dropWhile p l := by
      rw [← ht, hz]
      simp
    have hpc : p c = false := by
      apply dropWhileHeadFalse p c (z ++ t)
      rw [hyc]
      exact hyfix
    rw [List.dropWhile_cons, if_neg (by simp [hpc])]

theorem pyStrip_idem (s : String) : pyStrip (pyStrip s) = pyStrip s := by
  show String.mk (List.rdropWhile pyIsSpace
      (List.dropWhile pyIsSpace (List.rdropWhile pyIsSpace (List.dropWhile pyIsSpace s.data))))
    = String.mk (List.rdropWhile pyIsSpace (List.dropWhile pyIsSpace s.data))
  rw [stripNoLeadingWs, List.rdropWhile_idempotent]

theorem pyStrip_of_strJoin_fixed (parts : List String) :
    pyStrip (joinAddressParts parts) = joinAddressParts parts := by
  unfold joinAddressParts
  exact pyStrip_idem _

theorem fromComponents_stripped (loc : Val) :
    pyStrip (formatAddressFromComponents loc) = formatAddressFromComponents loc := by
  unfold formatAddressFromComponents
  exact pyStrip_of_strJoin_fixed _

theorem formatAddress_vstr (s : String) (loc : Val) :
    formatAddress (.vstr s) loc =
      if pyStrip s ≠ "" then pyStrip s else formatAddressFromComponents loc := rfl

/-- The output of `_format_address` is always a stripped string. -/
theorem formatAddress_stripped (addr loc : Val) :
    pyStrip (formatAddress addr loc) = formatAddress addr loc := by
  cases addr with
  | vstr s =>
    rw [formatAddress_vstr]
    by_cases h : pyStrip s = ""
    · simp only [h, ne_eq, not_true_eq_false, not_false_eq_true, if_neg, if_false]
      exact fromComponents_stripped loc
    · simp only [ne_eq, h, not_false_eq_true, if_true]
      exact pyStrip_idem s
  | vdict am => exact pyStrip_of_strJoin_fixed _
  | vnull => exact fromComponents_stripped loc
  | vbool b => exact fromComponents_stripped loc
  | vint n => exact fromComponents_stripped loc
  | vfloat q => exact fromComponents_stripped loc
  | vlist xs => exact fromComponents_stripped loc

/-- C9: address composition is idempotent.  A non-empty flat (already
stripped) address string is returned unchanged by `_format_address`, and
re-applying `_format_address` to its own output (for any string input)
changes nothing. -/
theorem formatAddress_flat_idempotent :
    (∀ (s : String) (loc : Val), pyStrip s = s → s ≠ "" →
      formatAddress (.vstr s) loc = s) ∧
    (∀ (s : String) (loc : Val),
      formatAddress (.vstr (formatAddress (.vstr s) loc)) loc
        = formatAddress (.vstr s) loc) := by
  constructor
  · intro s loc hfix hne
    rw [formatAddress_vstr, hfix]
    simp [hne]
  · intro s loc
    have hstr := formatAddress_stripped (.vstr s) loc
    by_cases h : formatAddress (.vstr s) loc = ""
    · rw [h]
      by_cases hs : pyStrip s = ""
      · rw [formatAddress_vstr] at h ⊢
        simp only [hs, ne_eq, not_true_eq_false, if_false] at h
        have hemp : pyStrip "" = "" := by decide
        simp [formatAddress_vstr, hemp, hs, h]
      · rw [formatAddress_vstr] at h
        simp only [ne_eq, hs, not_false_eq_true, if_true] at h
    · rw [formatAddress_vstr, hstr]
      simp [h]

theorem formatAddress_flat_idempotent_witness :
    pyStrip "123 Main St, San Diego, CA 92101" = "123 Main St, San Diego, CA 92101" ∧
    "123 Main St, San Diego, CA 92101" ≠ "" ∧
    formatAddress (.vstr "123 Main St, San Diego, CA 92101") (.vdict [])
      = "123 Main St, San Diego, CA 92101" :=
  ⟨by decide, by decide,
   formatAddress_flat_idempotent.1 "123 Main St, San Diego, CA 92101" (.vdict [])
     (by decide) (by decide)⟩

theorem findAliasVal_blank (m : List (String × Val)) (ks : List String)
    (h : ∀ k ∈ ks, dlookup m k = none ∨
      ∃ s, dlookup m k = some (.vstr s) ∧ pyStrip s = "") :
    findAliasVal m ks = none ∨
      ∃ s, findAliasVal m ks = some (.vstr s) ∧ pyStrip s = "" := by
  induction ks with
  | nil => left; rfl
  | cons k ks ih =>
    have hrest := fun k' hk' => h k' (List.mem_cons_of_mem _ hk')
    rcases h k (List.mem_cons_self k ks) with hnone | ⟨s, hs, hstrip⟩
    · simp only [findAliasVal, hnone]
      exact ih hrest
    · by_cases hse : s = ""
      · subst hse
        simp only [findAliasVal, hs, aliasPresent, pyTruthy, pyIsZero, bne_self_eq_false,
          Bool.or_self, Bool.false_or, if_false]
        exact ih hrest
      · right
        refine ⟨s, ?_, hstrip⟩
        simp only [findAliasVal, hs, aliasPresent, pyTruthy, pyIsZero, Bool.or_false]
        simp [bne, hse]

/-- C1: the alias resolver preserves numeric zero for latitude/longitude —
when `0.0` sits under the canonical key or any alias (and no earlier probed
key is bound), `_alias_get` returns it rather than treating it as absent —
while a string field whose probed keys hold only empty or whitespace-only
strings resolves as absent (`""`) once passed through `_first_nonempty`. -/
theorem aliasGet_zero_present_blank_absent :
    (∀ (m : List (String × Val)) (key k : String),
      (key = "latitude" ∨ key = "longitude") →
      k ∈ probeKeys key →
      dlookup m k = some (.vfloat 0) →
      (∀ k' ∈ probeKeys key, k' ≠ k → dlookup m k' = none) →
      aliasGet (.vdict m) key = some (.vfloat 0)) ∧
    (∀ (m : List (String × Val)) (key : String),
      (∀ k ∈ probeKeys key, dlookup m k = none ∨
        ∃ s, dlookup m k = some (.vstr s) ∧ pyStrip s = "") →
      dlookup m "geo" = none → dlookup m "contactPoint" = none →
      dlookup m "contact_point" = none →
      resolveStr (.vdict m) key = "") := by
  have hpres : aliasPresent (Val.vfloat 0) = true := by decide
  constructor
  · intro m key k hkey hk hzero hothers
    have haux : findAliasVal m (probeKeys key) = some (.vfloat 0) := by
      rcases hkey with rfl | rfl
      · simp only [probeKeys, fieldAliases] at hk ⊢
        simp at hk
        rcases hk with rfl | rfl | rfl | rfl
        · simp [findAliasVal, hzero, hpres]
        · have h1 := hothers "latitude" (by decide) (by decide)
          simp [findAliasVal, h1, hzero, hpres]
        · simp [findAliasVal, hzero, hpres]
        · have h1 := hothers "latitude" (by decide) (by decide)
          have h2 := hothers "geo_latitude" (by decide) (by decide)
          simp [findAliasVal, h1, h2, hzero, hpres]
      · simp only [probeKeys, fieldAliases] at hk ⊢
        simp at hk
        rcases hk with rfl | rfl | rfl | rfl | rfl
        · simp [findAliasVal, hzero, hpres]
        · have h1 := hothers "longitude" (by decide) (by decide)
          simp [findAliasVal, h1, hzero, hpres]
        · simp [findAliasVal, hzero, hpres]
        · have h1 := hothers "longitude" (by decide) (by decide)
          have h2 := hothers "geo_longitude" (by decide) (by decide)
          simp [findAliasVal, h1, h2, hzero, hpres]
        · have h1 := hothers "longitude" (by decide) (by decide)
          have h2 := hothers "geo_longitude" (by decide) (by decide)
          have h3 := hothers "lng" (by decide) (by decide)
          simp [findAliasVal, h1, h2, h3, hzero, hpres]
    simp [aliasGet, haux]
  · intro m key hblank hgeo hcp1 hcp2
    rcases findAliasVal_blank m (probeKeys key) hblank with hnone | ⟨s, hs, hstrip⟩
    · have hag : aliasGet (.vdict m) key = none := by
        simp only [aliasGet, hnone]
        by_cases h1 : key = "latitude" ∨ key = "longitude"
        · simp [h1, dget, hgeo, pyOr, pyTruthy, dlookup]
        · by_cases h2 : key = "phone" ∨ key = "email"
          · simp [h1, h2, dget, hcp1, hcp2, pyOr, pyTruthy]
          · simp [h1, h2]
      simp [resolveStr, hag, optVal, firstNonempty]
    · have hag : aliasGet (.vdict m) key = some (.vstr s) := by
        simp only [aliasGet, hs]
      simp [resolveStr, hag, optVal, firstNonempty, hstrip]

theorem aliasGet_zero_present_blank_absent_witness :
    aliasGet (.vdict [("lat", .vfloat 0)]) "latitude" = some (.vfloat 0) ∧
    resolveStr (.vdict [("phone", .vstr " ")]) "phone" = "" := by
  constructor
  · apply aliasGet_zero_present_blank_absent.1 _ "latitude" "lat" (Or.inl rfl)
    · decide
    · rfl
    · intro k' hmem hne
      simp [probeKeys, fieldAliases] at hmem
      rcases hmem with rfl | rfl | rfl | rfl
      · rfl
      · rfl
      · rfl
      · exact absurd rfl hne
  · apply aliasGet_zero_present_blank_absent.2
    · intro k hmem
      simp [probeKeys, fieldAliases] at hmem
      rcases hmem with rfl | rfl | rfl | rfl | rfl
      · exact Or.inr ⟨" ", rfl, by decide⟩
      · exact Or.inl rfl
      · exact Or.inl rfl
      · exact Or.inl rfl
      · exact Or.inl rfl
    · rfl
    · rfl
    · rfl

/-- C2: two scanned location records with the same normalized dedup
signature produce one rendered card (the first record), two records
scanned, and a reported duplicate count (scanned minus rendered) of
exactly one. -/
theorem processLocs_dedup_pair (r1 r2 : Val) (h1 : isDict r1 = true)
    (h2 : isDict r2 = true) (hsig : contactSig r1 = contactSig r2) :
    processLocs [r1, r2] [] = (2, 1, [r1]) ∧
    (processLocs [r1, r2] []).1 - (processLocs [r1, r2] []).2.1 = 1 := by
  have main : processLocs [r1, r2] [] = (2, 1, [r1]) := by
    simp [processLocs, h1, h2, hsig]
  exact ⟨main, by rw [main]; rfl⟩

theorem processLocs_dedup_pair_witness :
    processLocs [.vdict [("name", .vstr "Acme Law"), ("phone", .vstr "619-555-0100")],
                 .vdict [("name", .vstr "Acme Law"), ("phone", .vstr "619-555-0100")]] []
      = (2, 1, [.vdict [("name", .vstr "Acme Law"), ("phone", .vstr "619-555-0100")]]) :=
  (processLocs_dedup_pair
    (.vdict [("name", .vstr "Acme Law"), ("phone", .vstr "619-555-0100")])
    (.vdict [("name", .vstr "Acme Law"), ("phone", .vstr "619-555-0100")])
    rfl rfl rfl).1

/-- C3: merging an organization collection whose first record is
`{"name": "Acme"}` and whose second record is
`{"sameAs": ["https://x.com/acme"]}` yields name `"Acme"` and the merged
social list exactly `["https://x.com/acme"]` — fields merge across files
even though no single file carries both. -/
theorem mergeOrgs_cross_file :
    mergeOrgs [.vdict [("name", .vstr "Acme")],
               .vdict [("sameAs", .vlist [.vstr "https://x.com/acme"])]]
      = ([("name", "Acme")], ["https://x.com/acme"]) := by
  simp [mergeOrgs, mergeScalarOrder, mergeListKeys, mergeScalar, dedupSocials, asList,
    vget, dget, dlookup, firstNonempty, pyStr]
  decide

/-- C4 (code-bug evidence): a structured opening-hours entry whose day is
the non-empty list `["Monday"]` with opens/closes times is dropped —
`_extract_hours` returns the empty string — because `_first_nonempty`
skips list values, making the `isinstance(day, list)` branch of the source
unreachable. -/
theorem extractHours_drops_list_day :
    extractHours (.vdict [("openingHoursSpecification",
      .vlist [.vdict [("dayOfWeek", .vlist [.vstr "Monday"]),
                      ("opens", .vstr "09:00"), ("closes", .vstr "17:00")]])]) = "" := by
  decide

/-- C5: a URL-valued `dayOfWeek` is reduced to its last path segment and the
entry renders as `"Monday: 09:00 – 17:00"`. -/
theorem extractHours_schema_url_day :
    extractHours (.vdict [("openingHoursSpecification",
      .vlist [.vdict [("dayOfWeek", .vstr "https://schema.org/Monday"),
                      ("opens", .vstr "09:00"), ("closes", .vstr "17:00")]])])
      = "Monday: 09:00 – 17:00" := by
  decide

/-- C6 counterexample: a services record whose candidate title is
`"Service 1"` is classified as a placeholder, yet `_guess_title` can still
return the literal `"Service 1"` when the filename-derived fallback
reconstructs it (file `service-1.json`). -/
theorem guessTitle_service1_counterexample :
    isPlaceholderTitle "Service 1" = true ∧
    guessTitle (.vdict [("title", .vstr "Service 1")]) "schemas/services/service-1.json"
      = "Service 1" := by
  decide

theorem strOr_ne (a b : String) (hb : b ≠ "") : strOr a b ≠ "" := by
  by_cases h : a = "" <;> simp [strOr, h, hb]

theorem guessTitle_last_step (c1 : String) (fname : String)
    (htff : titleFromFilename fname ≠ "Service 1") :
    strOr (if isPlaceholderTitle c1 then titleFromFilename fname else c1) "Service"
      ≠ "Service 1" := by
  by_cases hp : isPlaceholderTitle c1 = true
  · simp only [hp, if_true]
    by_cases he : titleFromFilename fname = ""
    · simp [strOr, he]
    · simp [strOr, he]
      exact htff
  · have hc1 : c1 ≠ "Service 1" := by
      intro heq
      rw [heq] at hp
      exact hp (by decide)
    simp only [hp, if_false]
    by_cases he : c1 = ""
    · simp [strOr, he]
    · simp [strOr, he]
      exact hc1

/-- C6 (amended): `"Service 1"` is a placeholder and `_guess_title` never
returns the empty string; the final title differs from `"Service 1"`
whenever the filename-derived fallback title is not itself `"Service 1"`
(the counterexample above shows the fallback can reintroduce it). -/
theorem guessTitle_placeholder_fallback :
    isPlaceholderTitle "Service 1" = true ∧
    (∀ (obj : Val) (fname : String), guessTitle obj fname ≠ "") ∧
    (∀ (obj : Val) (fname : String), titleFromFilename fname ≠ "Service 1" →
      guessTitle obj fname ≠ "Service 1") := by
  refine ⟨by decide, ?_, ?_⟩
  · intro obj fname
    unfold guessTitle guessTitleFrom
    exact strOr_ne _ _ (by decide)
  · intro obj fname htff
    unfold guessTitle guessTitleFrom
    exact guessTitle_last_step _ fname htff

theorem guessTitle_placeholder_fallback_witness :
    titleFromFilename "schemas/services/dui-defense.json" ≠ "Service 1" ∧
    guessTitle (.vdict [("title", .vstr "Service 1")]) "schemas/services/dui-defense.json"
      ≠ "Service 1" :=
  ⟨by decide,
   guessTitle_placeholder_fallback.2.2 (.vdict [("title", .vstr "Service 1")])
     "schemas/services/dui-defense.json" (by decide)⟩

/-- C7: with a numeric latitude but an absent or non-numeric longitude,
`_map_embed_src` never takes the coordinate branch and falls through to the
explicit embed URL, then the maps URL, then the address-encoded maps URL,
then absent (`""`). -/
theorem mapEmbedSrc_partial_coords (loc : Val) (address : String)
    (_hlat : optIsNum (aliasGet loc "latitude") = true)
    (hlng : optIsNum (aliasGet loc "longitude") = false) :
    mapEmbedSrc loc address =
      (let mapUrl := firstNonempty [optVal (aliasGet loc "map_embed_url")]
       let gmaps := firstNonempty [optVal (aliasGet loc "google_maps_url")]
       if mapUrl ≠ "" then mapUrl
       else if gmaps ≠ "" then gmaps
       else if address ≠ "" then
         "https://www.google.com/maps?q=" ++ quotePlus address ++ "&output=embed"
       else "") := by
  unfold mapEmbedSrc
  simp [hlng]

theorem mapEmbedSrc_partial_coords_witness :
    mapEmbedSrc
      (.vdict [("latitude", .vfloat 0), ("google_maps_url", .vstr "https://maps.example/x")])
      "" = "https://maps.example/x" := by
  have h := mapEmbedSrc_partial_coords
    (.vdict [("latitude", .vfloat 0), ("google_maps_url", .vstr "https://maps.example/x")])
    "" (by decide) (by decide)
  rw [h]
  decide

/-- C8 counterexample: with zero organization records, no name discoverable
from other schema files, and repository slug `"acme/"` (nothing after the
first slash), `load_org_meta` yields the empty name — not a non-empty
slug-derived name and not `"Site"`. -/
theorem loadOrgMetaName_empty_counterexample :
    loadOrgMetaName none "" "acme/" = "" := by decide

theorem titleAux_length (l : List Char) : ∀ b : Bool, (titleAux b l).length = l.length := by
  induction l with
  | nil => intro b; rfl
  | cons c cs ih =>
    intro b
    simp only [titleAux]
    split <;> simp [ih]

theorem strDataNil {s : String} (h : s.data = []) : s = "" := by
  cases s with
  | mk data =>
    simp only at h
    rw [h]

theorem slugSiteName_ne (slug : String) (h : afterFirstSlash slug ≠ "") :
    slugSiteName slug ≠ "" := by
  intro hempty
  apply h
  apply strDataNil
  have hdata : titleAux false (replaceChar (afterFirstSlash slug) '-' ' ').data = [] :=
    congrArg String.data hempty
  have hlen := titleAux_length (replaceChar (afterFirstSlash slug) '-' ' ').data false
  rw [hdata] at hlen
  simp only [List.length_nil] at hlen
  unfold replaceChar at hlen
  simp only [List.length_map] at hlen
  exact List.eq_nil_of_length_eq_zero hlen.symm

/-- C8 (amended): with zero organization records and no name discoverable
from other schema files, `load_org_meta` yields `"Site"` when the
repository slug is unset, otherwise the slug's part after the first slash
with hyphens replaced by spaces and title-cased; that name is non-empty
except when a non-empty slug has nothing after its first slash (the
counterexample above). -/
theorem loadOrgMetaName_zero_orgs (slug : String) :
    loadOrgMetaName none "" slug = (if slug = "" then "Site" else slugSiteName slug) ∧
    ((slug = "" ∨ afterFirstSlash slug ≠ "") → loadOrgMetaName none "" slug ≠ "") := by
  have heq : loadOrgMetaName none "" slug
      = (if slug = "" then "Site" else slugSiteName slug) := by
    by_cases h : slug = "" <;> simp [loadOrgMetaName, firstNonempty, h]
  refine ⟨heq, ?_⟩
  intro hc
  rw [heq]
  by_cases h : slug = ""
  · simp [h]
  · rcases hc with rfl | hne
    · exact absurd rfl h
    · simp only [h, if_false]
      exact slugSiteName_ne slug hne

theorem loadOrgMetaName_zero_orgs_witness :
    (("a/acme-law" : String) = "" ∨ afterFirstSlash "a/acme-law" ≠ "") ∧
    loadOrgMetaName none "" "a/acme-law" ≠ "" :=
  ⟨Or.inr (by decide), (loadOrgMetaName_zero_orgs "a/acme-law").2 (Or.inr (by decide))⟩

theorem collapseWs_mem (l : List Char) : ∀ (b : Bool) (c : Char),
    c ∈ collapseWsAux b l → (c ∈ l ∧ pyIsSpace c = false) ∨ c = '-' := by
  induction l with
  | nil => intro b c hc; simp [collapseWsAux] at hc
  | cons a as ih =>
    intro b c hc
    simp only [collapseWsAux] at hc
    by_cases ha : pyIsSpace a = true
    · rw [if_pos ha] at hc
      by_cases hb : b = true
      · rw [if_pos hb] at hc
        rcases ih true c hc with ⟨hm, hw⟩ | hd
        · exact Or.inl ⟨List.mem_cons_of_mem _ hm, hw⟩
        · exact Or.inr hd
      · rw [if_neg hb] at hc
        rcases List.mem_cons.mp hc with rfl | hc'
        · exact Or.inr rfl
        · rcases ih true c hc' with ⟨hm, hw⟩ | hd
          · exact Or.inl ⟨List.mem_cons_of_mem _ hm, hw⟩
          · exact Or.inr hd
    · rw [if_neg ha] at hc
      rcases List.mem_cons.mp hc with rfl | hc'
      · exact Or.inl ⟨List.mem_cons_self _ _, by simpa using ha⟩
      · rcases ih false c hc' with ⟨hm, hw⟩ | hd
        · exact Or.inl ⟨List.mem_cons_of_mem _ hm, hw⟩
        · exact Or.inr hd

theorem mem_pyStrip_sub {c : Char} {s : String} (h : c ∈ (pyStrip s).data) :
    c ∈ s.data := by
  unfold pyStrip at h
  simp only at h
  have h1 : c ∈ List.dropWhile pyIsSpace s.data :=
    (List.rdropWhile_prefix pyIsSpace (List.dropWhile pyIsSpace s.data)).subset h
  exact (List.dropWhile_suffix pyIsSpace).subset h1

theorem slugCore_chars (s : String) (c : Char) (hc : c ∈ (slugCore s).data) :
    goodSlugChar c = true := by
  unfold slugCore at hc
  simp only at hc
  rcases collapseWs_mem _ false c hc with ⟨hmem, hws⟩ | rfl
  · unfold pyLower at hmem
    simp only at hmem
    obtain ⟨c0, hc0, rfl⟩ := List.mem_map.mp hmem
    have hc0' := mem_pyStrip_sub (c := c0) (s := String.mk (s.data.filter slugKeep)) hc0
    simp only at hc0'
    have hkeep : slugKeep c0 = true := (List.mem_filter.mp hc0').2
    simp only [slugKeep, Bool.or_eq_true, Bool.and_eq_true, decide_eq_true_eq] at hkeep
    rcases hkeep with (((⟨h1, h2⟩ | ⟨h1, h2⟩) | ⟨h1, h2⟩) | hsp) | hdash
    · have hval : 65 ≤ c0.toNat ∧ c0.toNat ≤ 90 := ⟨h1, h2⟩
      unfold lowerChar
      rw [if_pos hval]
      have ht := charToNatOfNat (c0.toNat + 32) (by omega)
      simp only [goodSlugChar, ht, Bool.or_eq_true, Bool.and_eq_true, decide_eq_true_eq]
      exact Or.inl (Or.inl ⟨by omega, by omega⟩)
    · have hni : ¬(65 ≤ c0.toNat ∧ c0.toNat ≤ 90) := by omega
      unfold lowerChar
      rw [if_neg hni]
      simp only [goodSlugChar, Bool.or_eq_true, Bool.and_eq_true, decide_eq_true_eq]
      exact Or.inl (Or.inl ⟨h1, h2⟩)
    · have hni : ¬(65 ≤ c0.toNat ∧ c0.toNat ≤ 90) := by omega
      unfold lowerChar
      rw [if_neg hni]
      simp only [goodSlugChar, Bool.or_eq_true, Bool.and_eq_true, decide_eq_true_eq]
      exact Or.inl (Or.inr ⟨h1, h2⟩)
    · simp only [pyIsSpace, Bool.or_eq_true, decide_eq_true_eq] at hsp
      rcases hsp with ((((rfl | rfl) | rfl) | rfl) | rfl) | rfl
      · exact absurd hws (by decide)
      · exact absurd hws (by decide)
      · exact absurd hws (by decide)
      · exact absurd hws (by decide)
      · exact absurd hws (by decide)
      · exact absurd hws (by decide)
    · subst hdash
      decide
  · decide

/-- C10: for every input value, `slugify` returns a non-empty string made
only of lowercase ASCII letters, digits and hyphens, falling back to
`"item"` when the input is falsy or nothing usable remains. -/
theorem slugify_safe (v : Val) :
    slugify v ≠ "" ∧ ∀ c ∈ (slugify v).data, goodSlugChar c = true := by
  unfold slugify
  by_cases ht : pyTruthy v
  · simp only [ht, Bool.not_true, Bool.false_eq_true, if_false]
    by_cases hr : slugCore (pyStr v) = ""
    · simp only [hr, if_true]
      exact ⟨by decide, by decide⟩
    · simp only [hr, if_false]
      exact ⟨hr, fun c hc => slugCore_chars _ c hc⟩
  · simp only [Bool.not_eq_true] at ht
    simp only [ht, Bool.not_false, if_true]
    exact ⟨by decide, by decide⟩

theorem slugify_safe_witness :
    slugify (.vstr "San Diego, CA!") ≠ "" ∧ goodSlugChar '-' = true :=
  ⟨(slugify_safe (.vstr "San Diego, CA!")).1,
   (slugify_safe (.vstr "San Diego, CA!")).2 '-' (by decide)⟩
